import Mathlib

/-!
Verification of the hls.js transmuxing / adaptive-delivery core.

This development shallowly embeds the parts of the source reachable from the
claims: the AAC/ADTS demuxer (`src/demux/aacdemuxer.ts`), the audio stream
controller (`src/controller/audio-stream-controller.ts`) and the level
controller (the unnamed level-controller source file).  External helper
modules that are not part of the provided sources (`adts.ts`, `id3.ts`,
`buffer-helper`, `utils/codecs`, browser APIs) are modelled from the spec and
are marked as such in their doc comments.
-/

namespace Hls

/-- A byte buffer (`Uint8Array`), each entry a byte value. -/
abbrev Bytes := List Nat

/-! ## ID3 helpers

Modelled from the spec: the Audio-Frame Demuxer "parses an optional leading
timed-metadata header" (spec §4.2).  The source module `demux/id3.ts` is not
among the provided files; the tag layout below follows the standard ID3v2
header the spec's metadata header refers to: the magic bytes `ID3`, two
version bytes, a flags byte and a four-byte syncsafe size. -/

namespace ID3

/-- Modelled from the spec: recognise an ID3v2 timed-metadata tag header at
`offset` (magic `I`,`D`,`3` followed by a 10-byte header). -/
def isHeader (data : Bytes) (offset : Nat) : Bool :=
  offset + 10 ≤ data.length &&
  data.getD offset 0 == 0x49 && data.getD (offset + 1) 0 == 0x44 &&
  data.getD (offset + 2) 0 == 0x33 &&
  data.getD (offset + 3) 0 < 0xff && data.getD (offset + 4) 0 < 0xff &&
  data.getD (offset + 6) 0 < 0x80 && data.getD (offset + 7) 0 < 0x80 &&
  data.getD (offset + 8) 0 < 0x80 && data.getD (offset + 9) 0 < 0x80

/-- Modelled from the spec: the syncsafe 28-bit tag size held in header bytes
6–9, giving a total tag length of 10 header bytes plus the size. -/
def tagLength (data : Bytes) (offset : Nat) : Nat :=
  10 + (data.getD (offset + 6) 0 * 2 ^ 21 + data.getD (offset + 7) 0 * 2 ^ 14 +
        data.getD (offset + 8) 0 * 2 ^ 7 + data.getD (offset + 9) 0)

/-- Modelled from the spec: return the bytes of the timed-metadata tag found
at `offset`, or `none` when no tag starts there. -/
def getID3Data (data : Bytes) (offset : Nat) : Option Bytes :=
  if isHeader data offset then
    some ((data.drop offset).take (tagLength data offset))
  else
    none

/-- Modelled from the spec: the spec does not define the encoding of an
"explicit metadata timestamp" inside the tag (spec §4.2 treats it as a
best-effort, optional source), so no timestamp is ever extracted. -/
def getTimeStamp (_ : Bytes) : Option Int :=
  none

end ID3

/-! ## ADTS helpers

Modelled from the spec: the Audio-Frame Demuxer "scans for the frame-sync
pattern (12 sync bits + fixed-layer bits) to locate a frame header, validates
the declared frame length fits within the remaining buffer, and extracts one
frame per header found" (spec §4.2).  The source module `demux/adts.ts` is not
among the provided files; the bit layout below is the ADTS header layout the
demuxer source refers to (sync `0xFFF`, zero layer bits, a protection-absent
bit selecting a 7- or 9-byte header, and a 13-bit full frame length spread
over header bytes 3–5). -/

/-- One demuxed audio sample: presentation timestamp and payload bytes. -/
structure AACSample where
  pts : Int
  data : Bytes
  deriving Repr, DecidableEq

namespace ADTS

/-- Modelled from the spec: 12 sync bits high and the two layer bits zero. -/
def isHeaderPattern (data : Bytes) (offset : Nat) : Bool :=
  data.getD offset 0 == 0xff && data.getD (offset + 1) 0 / 2 % 4 == 0 &&
  data.getD (offset + 1) 0 / 16 == 0xf

/-- Modelled from the spec: a frame header may start at `offset` when the sync
pattern is present (the two header bytes holding it must be in range). -/
def isHeader (data : Bytes) (offset : Nat) : Bool :=
  offset + 1 < data.length && isHeaderPattern data offset

/-- Modelled from the spec: the header length is 7 bytes, or 9 when the
protection-absent bit (lowest bit of header byte 1) is clear. -/
def getHeaderLength (data : Bytes) (offset : Nat) : Nat :=
  if data.getD (offset + 1) 0 % 2 == 1 then 7 else 9

/-- Modelled from the spec: the declared full frame length, a 13-bit field:
the low 2 bits of header byte 3, all of byte 4 and the top 3 bits of byte 5. -/
def getFullFrameLength (data : Bytes) (offset : Nat) : Nat :=
  (data.getD (offset + 3) 0 % 4) * 2 ^ 11 +
  data.getD (offset + 4) 0 * 2 ^ 3 +
  data.getD (offset + 5) 0 / 2 ^ 5

/-- Modelled from the spec: sample timestamps are extrapolated as
"frame index × samples-per-frame / sample-rate" (spec §4.2); in the track's
90 kHz input time scale one AAC frame of 1024 samples at the modelled sample
rate lasts `frameDuration` ticks. -/
def frameDuration : Int := 1024 * 90000 / 44100

/-- Modelled from the spec: extract the frame declared at `offset`; succeeds
when the declared frame length leaves a non-empty payload after the header,
returning the sample and the number of bytes consumed (the full frame
length).  Timestamps extrapolate from `pts` by the running frame index. -/
def appendFrame (data : Bytes) (offset : Nat) (pts : Int) (frameIndex : Nat) :
    Option (AACSample × Nat) :=
  let headerLength := getHeaderLength data offset
  let frameLength := getFullFrameLength data offset
  if headerLength < frameLength then
    let stamp := pts + frameIndex * frameDuration
    some (⟨stamp, (data.drop (offset + headerLength)).take (frameLength - headerLength)⟩,
          frameLength)
  else
    none

end ADTS

/-! ## AAC demuxer (`src/demux/aacdemuxer.ts`) -/

/-- The mutable state of `AACDemuxer`: the bytes cached across `demux` calls,
the running frame index, and the accumulated audio-track samples (the track
object is long-lived; `demux` only ever appends to `samples`). -/
structure AACDemuxerState where
  cachedData : Bytes
  frameIndex : Nat
  samples : List AACSample
  deriving Repr, DecidableEq

/-- A fresh demuxer, as produced by `resetInitSegment`. -/
def AACDemuxerState.init : AACDemuxerState :=
  { cachedData := [], frameIndex := 0, samples := [] }

/-- The `while (offset <= length)` loop of `AACDemuxer.demux` (source lines
71–94).  A frame is parsed only when a header is present, at least 5 further
bytes follow it, and the declared full frame length is strictly smaller than
the remaining byte count; otherwise an ID3 tag is skipped over, and any other
bytes are cached for the next call.  `fuel` bounds the recursion; callers pass
more fuel than loop iterations, so it never runs out. -/
def demuxLoop : Nat → Bytes → Nat → Int → AACDemuxerState → AACDemuxerState
  | 0, data, offset, _, st => { st with cachedData := data.drop offset }
  | fuel + 1, data, offset, pts, st =>
    if offset ≤ data.length then
      if ADTS.isHeader data offset ∧ offset + 5 < data.length ∧
          ADTS.getFullFrameLength data offset < data.length - offset then
        match ADTS.appendFrame data offset pts st.frameIndex with
        | some (sample, len) =>
          demuxLoop fuel data (offset + len) pts
            { st with frameIndex := st.frameIndex + 1, samples := st.samples ++ [sample] }
        | none =>
          -- "Unable to parse AAC frame": cache from the failing offset on.
          { st with cachedData := data.drop offset }
      else if ID3.isHeader data offset then
        let id3Data := (ID3.getID3Data data offset).getD []
        demuxLoop fuel data (offset + id3Data.length) pts st
      else
        -- nothing found, cache and keep looking
        { st with cachedData := data.drop offset }
    else
      st

/-- `AACDemuxer.demux` (source lines 53–102): prepend the cached bytes, clear
the cache, skip a leading ID3 tag, derive the base timestamp from an ID3
timestamp when present (scaled by 90) or from `timeOffset` (scaled by 90000),
then run the parsing loop.  The source collects ID3 samples into a local
array that is dropped (the returned `id3Track` is a dummy track), so they are
not modelled. -/
def AACDemuxer.demux (st : AACDemuxerState) (input : Bytes) (timeOffset : Int) :
    AACDemuxerState :=
  let data := st.cachedData ++ input
  let st := { st with cachedData := [] }
  let id3Data := (ID3.getID3Data data 0).getD []
  let pts : Int :=
    match ID3.getTimeStamp id3Data with
    | some timestamp => timestamp * 90
    | none => timeOffset * 90000
  demuxLoop (data.length + 1) data id3Data.length pts st

/-- `AACDemuxer.flush` (source lines 108–117): resets the frame index and
returns the track unchanged — in particular it does not parse `cachedData`. -/
def AACDemuxer.flush (st : AACDemuxerState) : AACDemuxerState :=
  { st with frameIndex := 0 }

/-! Concrete ADTS frames for the C1 scenario: three back-to-back 9-byte frames
(7-byte header, declared full frame length 9, two payload bytes each). -/

/-- First complete ADTS frame of the C1 scenario. -/
def frameA : Bytes := [0xff, 0xf1, 0x50, 0x40, 0x01, 0x20, 0x00, 0xaa, 0xab]

/-- Second complete ADTS frame of the C1 scenario. -/
def frameB : Bytes := [0xff, 0xf1, 0x50, 0x40, 0x01, 0x20, 0x00, 0xba, 0xbb]

/-- Third ADTS frame of the C1 scenario, split across the two calls. -/
def frameC : Bytes := [0xff, 0xf1, 0x50, 0x40, 0x01, 0x20, 0x00, 0xca, 0xcb]

/-- First `demux` input: two back-to-back frames plus the 3 leading header
bytes of the third. -/
def c1Input1 : Bytes := frameA ++ frameB ++ frameC.take 3

/-- Second `demux` input: the remaining bytes of the third frame. -/
def c1Input2 : Bytes := frameC.drop 3

/-- C1: feeding two back-to-back ADTS frames plus 3 trailing header bytes
emits exactly 2 samples and caches the 3 trailing bytes; but the subsequent
`demux` call carrying the remaining bytes of the third frame emits no third
sample — the strict `<` in the full-frame guard (source line 73) caches the
now-complete third frame instead, and `flush` does not parse cached data, so
the third sample is never produced, contradicting the claim's scenario. -/
theorem c1_scenario_third_sample_never_emitted :
    (AACDemuxer.demux AACDemuxerState.init c1Input1 0).samples.length = 2 ∧
    (AACDemuxer.demux AACDemuxerState.init c1Input1 0).cachedData = frameC.take 3 ∧
    (AACDemuxer.demux (AACDemuxer.demux AACDemuxerState.init c1Input1 0)
        c1Input2 0).samples.length = 2 ∧
    (AACDemuxer.demux (AACDemuxer.demux AACDemuxerState.init c1Input1 0)
        c1Input2 0).cachedData = frameC ∧
    (AACDemuxer.flush (AACDemuxer.demux (AACDemuxer.demux AACDemuxerState.init c1Input1 0)
        c1Input2 0)).samples.length = 2 := by
  decide

/-! ## Shared sink model

Modelled from the spec: the playback sink "reports `buffered ranges`,
`current time`" (spec §6); `BufferHelper` (not among the provided files)
answers whether a position lies in a buffered range, with an inclusive end
per its use with the 0.5 s stall tolerance. -/

/-- The sink-facing view of a media element: current playback position and
the buffered time ranges. -/
structure Media where
  currentTime : ℚ
  buffered : List (ℚ × ℚ)
  deriving Repr, DecidableEq

/-- Modelled from the spec: a position is buffered when some reported range
contains it. -/
def isBuffered (m : Media) (pos : ℚ) : Bool :=
  m.buffered.any fun r => r.1 ≤ pos && pos ≤ r.2

/-! ## Level controller data model -/

/-- Error types (`errors.ts`). -/
inductive ErrType where
  | NETWORK_ERROR | MEDIA_ERROR | OTHER_ERROR
  deriving Repr, DecidableEq

/-- Error details (`errors.ts`), restricted to those the embedded handlers
branch on; `OTHER_DETAIL` stands for every remaining value. -/
inductive ErrDetail where
  | FRAG_LOAD_ERROR | FRAG_LOAD_TIMEOUT | FRAG_LOOP_LOADING_ERROR
  | KEY_LOAD_ERROR | KEY_LOAD_TIMEOUT
  | LEVEL_LOAD_ERROR | LEVEL_LOAD_TIMEOUT
  | REMUX_ALLOC_ERROR
  | LEVEL_SWITCH_ERROR | MANIFEST_INCOMPATIBLE_CODECS_ERROR
  | AUDIO_TRACK_LOAD_ERROR | AUDIO_TRACK_LOAD_TIMEOUT
  | BUFFER_FULL_ERROR
  | OTHER_DETAIL
  deriving Repr, DecidableEq

/-- Reasons carried on triggered error events. -/
inductive ErrReason where
  | invalidLevelIdx | noCompatibleLevel
  deriving Repr, DecidableEq

/-- A level's parsed playlist (`LevelDetails`), restricted to the fields the
level controller reads. -/
structure LevelDetails where
  live : Bool
  endSN : Int
  targetduration : ℚ
  averagetargetduration : Option ℚ
  deriving Repr, DecidableEq

/-- One rendition as held in `LevelController._levels` (urls and codecs are
identified by numeric ids). -/
structure Level where
  bitrate : Nat
  url : List Nat
  urlId : Nat
  details : Option LevelDetails
  loadError : Nat
  fragmentError : Bool
  audioCodec : Option Nat
  videoCodec : Option Nat
  attrsAudio : Bool
  level : Option Int
  deriving Repr, DecidableEq

/-- The level controller's mutable state (`this.*` fields; `nextAutoLevel`
lives on the owning `hls` object but is written by this controller). -/
structure LCState where
  levels : Option (List Level)
  currentLevel : Option Int
  manualLevel : Int
  timer : Option ℚ
  canload : Bool
  nextAutoLevel : Int
  firstLevel : Nat
  deriving Repr, DecidableEq

/-- Configuration values the level controller reads. -/
structure LCConfig where
  levelLoadingRetryDelay : ℚ
  deriving Repr, DecidableEq

/-- Events the level controller triggers on the event bus. -/
inductive LCEvent where
  | LEVEL_LOADING (url : Nat) (levelIdx : Int) (id : Nat)
  | LEVEL_SWITCH (levelIdx : Int)
  | LEVEL_SWITCHING (levelIdx : Int)
  | ERROR_EVT (etype : ErrType) (edetail : ErrDetail) (fatal : Bool) (reason : Option ErrReason)
  | MANIFEST_PARSED (firstLevel : Nat)
  deriving Repr, DecidableEq

/-- Replace the element at index `n` by `f` applied to it (the in-place field
mutation of a level object inside the `_levels` array). -/
def listModify {α : Type} : List α → Nat → (α → α) → List α
  | [], _, _ => []
  | x :: xs, 0, f => f x :: xs
  | x :: xs, n + 1, f => x :: listModify xs n f

/-- `levels[i]` for a possibly negative JS index: `none` for any index
outside `[0, length)`. -/
def levelAt (L : List Level) (i : Int) : Option Level :=
  if 0 ≤ i then L[i.toNat]? else none

/-- `LevelController.setLevelInternal` (level-controller source lines
156–183): for a valid index, stop the live-reload timer, on an actual switch
record the new level (also writing its `level` field) and announce it, then
request a playlist load when details are missing or the level is live; for an
invalid index trigger a non-fatal `LEVEL_SWITCH_ERROR`. -/
def setLevelInternal (s : LCState) (newLevel : Int) : LCState × List LCEvent :=
  match s.levels with
  | none => (s, [])
  | some levels =>
    if 0 ≤ newLevel ∧ newLevel < levels.length then
      let s := { s with timer := none }
      let (s, levels, evs) :=
        if s.currentLevel ≠ some newLevel then
          let levels := listModify levels newLevel.toNat fun l => { l with level := some newLevel }
          ({ s with currentLevel := some newLevel, levels := some levels }, levels,
           [LCEvent.LEVEL_SWITCH newLevel, LCEvent.LEVEL_SWITCHING newLevel])
        else
          (s, levels, [])
      match levelAt levels newLevel with
      | some level =>
        if level.details.isNone ∨ level.details.elim false (·.live) then
          (s, evs ++ [LCEvent.LEVEL_LOADING (level.url.getD level.urlId 0) newLevel level.urlId])
        else
          (s, evs)
      | none => (s, evs)  -- unreachable: the index was checked in range
    else
      (s, [LCEvent.ERROR_EVT ErrType.OTHER_ERROR ErrDetail.LEVEL_SWITCH_ERROR false
            (some ErrReason.invalidLevelIdx)])

/-- `LevelController.set level` (source lines 147–154): ignore the assignment
unless a level list exists and `levels.length > newLevel`; delegate to
`setLevelInternal` only when the index differs from the current level or the
target's details are uncached.  (When the guard reads `levels[newLevel]` the
index equals the current level, hence is in range; out-of-range access is
modelled as uncached.) -/
def setLevel (s : LCState) (newLevel : Int) : LCState × List LCEvent :=
  match s.levels with
  | none => (s, [])
  | some levels =>
    if newLevel < levels.length then
      if s.currentLevel ≠ some newLevel ∨ (levelAt levels newLevel).elim true (·.details.isNone) then
        setLevelInternal s newLevel
      else
        (s, [])
    else
      (s, [])

/-- Fragment types. -/
inductive FragType where
  | main | audio | subtitle
  deriving Repr, DecidableEq

/-- `LevelController.onFragLoaded` (source lines 309–317): on the successful
load of a `main` fragment whose level exists, clear that level's error
counter and fragment-error flag. -/
def onFragLoaded (s : LCState) (frag : Option (FragType × Nat)) : LCState :=
  match frag with
  | some (FragType.main, fragLevel) =>
    match s.levels with
    | none => s  -- unreachable: the handler only runs after a manifest loaded
    | some levels =>
      match levels[fragLevel]? with
      | some _ =>
        { s with levels := some (listModify levels fragLevel
            fun l => { l with fragmentError := false, loadError := 0 }) }
      | none => s
  | _ => s

/-- The payload of an `ERROR` event as the level controller reads it:
`frag.level`, `context.level` and `level` are carried separately because the
handler picks a different one per error detail; `levelRetry` and `fatal` may
be written back onto the payload. -/
structure LCErrorData where
  fatal : Bool
  etype : ErrType
  edetail : ErrDetail
  fragLevel : Option Nat
  contextLevel : Option Nat
  dataLevel : Option Nat
  levelRetry : Bool
  deriving Repr, DecidableEq

/-- The `switch (details)` of `LevelController.onError` (source lines
239–256): which level index the error concerns, and whether it is a level or
a fragment error. -/
def lcErrorTarget (d : LCErrorData) : Option Nat × Bool × Bool :=
  match d.edetail with
  | ErrDetail.FRAG_LOAD_ERROR | ErrDetail.FRAG_LOAD_TIMEOUT
  | ErrDetail.FRAG_LOOP_LOADING_ERROR
  | ErrDetail.KEY_LOAD_ERROR | ErrDetail.KEY_LOAD_TIMEOUT => (d.fragLevel, false, true)
  | ErrDetail.LEVEL_LOAD_ERROR | ErrDetail.LEVEL_LOAD_TIMEOUT => (d.contextLevel, true, false)
  | ErrDetail.REMUX_ALLOC_ERROR => (d.dataLevel, false, false)
  | _ => (none, false, false)

/-- `LevelController.onError` (source lines 226–306).  Fatal errors only stop
the live-reload timer (network type).  A non-fatal error naming a level bumps
that level's error counter, then: rotate to the next redundant URL and drop
the cached details while untried URLs remain; otherwise switch down
automatically (auto mode, not lowest level), or discard on a live stream
(forgetting the current level for level errors), or — for level errors — retry
after a delay when media is buffered at the playhead, else escalate to
fatal. -/
def lcOnError (cfg : LCConfig) (media : Option Media) (s : LCState) (d : LCErrorData) :
    LCState × LCErrorData :=
  if d.fatal then
    (if d.etype = ErrType.NETWORK_ERROR then { s with timer := none } else s, d)
  else
    let (levelIndex?, levelError, fragmentError) := lcErrorTarget d
    match levelIndex?, s.levels with
    | some levelIndex, some levels =>
      match levels[levelIndex]? with
      | none => (s, d)  -- unreachable: errors name an existing level
      | some level =>
        let level := { level with loadError := level.loadError + 1,
                                  fragmentError := fragmentError }
        let redundantLevels := level.url.length
        if redundantLevels > 1 ∧ level.loadError < redundantLevels then
          let level := { level with urlId := (level.urlId + 1) % redundantLevels,
                                    details := none }
          ({ s with levels := some (levels.set levelIndex level) }, d)
        else
          let s := { s with levels := some (levels.set levelIndex level) }
          if s.manualLevel = -1 ∧ levelIndex ≠ 0 then
            ({ s with nextAutoLevel := max 0 ((levelIndex : Int) - 1) }, d)
          else if level.details.elim false (·.live) then
            (if levelError then { s with currentLevel := none } else s, d)
          else if levelError then
            let mediaBuffered :=
              match media with
              | some m => isBuffered m m.currentTime && isBuffered m (m.currentTime + 1/2)
              | none => false
            if mediaBuffered then
              ({ s with timer := some cfg.levelLoadingRetryDelay }, { d with levelRetry := true })
            else
              ({ s with currentLevel := none, timer := none }, { d with fatal := true })
          else
            (s, d)
    | _, _ => (s, d)

/-- `Math.round` on a rational, as JS rounds: half-way cases toward `+∞`. -/
def jsRound (q : ℚ) : Int := ⌊q + 1/2⌋

/-- `LevelController.onLevelLoaded` (source lines 319–350): for the expected
level only, clear its error counter when no fragment error is pending; for a
live playlist arm the reload timer with target duration × 1000 ms (preferring
`averagetargetduration` when truthy), halved when the end sequence number did
not advance, minus the request latency, rounded and floored at 1000 ms; for a
non-live playlist clear the timer. -/
def onLevelLoaded (s : LCState) (levelId : Int) (newDetails : LevelDetails)
    (trequest now : ℚ) : LCState :=
  if some levelId = s.currentLevel then
    match s.levels with
    | none => s  -- unreachable: a level load implies a loaded manifest
    | some levels =>
      match levelAt levels levelId with
      | none => s  -- unreachable: the current level is a valid index
      | some curLevel =>
        let levels :=
          if curLevel.fragmentError = false then
            listModify levels levelId.toNat fun l => { l with loadError := 0 }
          else levels
        let s := { s with levels := some levels }
        if newDetails.live then
          let reloadInterval : ℚ := 1000 *
            (match newDetails.averagetargetduration with
             | some a => if a = 0 then newDetails.targetduration else a
             | none => newDetails.targetduration)
          let reloadInterval :=
            if curLevel.details.elim false (fun cur => newDetails.endSN = cur.endSN) then
              reloadInterval / 2
            else reloadInterval
          let reloadInterval := reloadInterval - (now - trequest)
          let reloadInterval : Int := max 1000 (jsRound reloadInterval)
          { s with timer := some (reloadInterval : ℚ) }
        else
          { s with timer := none }
  else s

/-- A level entry of the parsed manifest handed to `onManifestLoaded` (codecs
and urls are numeric ids; `attrsAudio` stands for `attrs.AUDIO`). -/
structure RawLevel where
  bitrate : Nat
  url : Nat
  audioCodec : Option Nat
  videoCodec : Option Nat
  attrsAudio : Bool
  deriving Repr, DecidableEq

/-- The redundant-level regrouping loop of `onManifestLoaded` (source lines
71–95): the first level of a bitrate becomes a group whose `url` wraps its
single URL with `urlId := 0`; every further level of the same bitrate only
pushes its URL onto that group.  `eraseMp4a4034` is true when the browser is
Chrome/Firefox and the codec contains `mp4a.40.34`, in which case the audio
codec is erased. -/
def groupStep (eraseMp4a4034 : Option Nat → Bool) (acc : List Level) (raw : RawLevel) :
    List Level :=
  let audioCodec := if eraseMp4a4034 raw.audioCodec then none else raw.audioCodec
  if acc.any (·.bitrate == raw.bitrate) then
    acc.map fun g =>
      if g.bitrate == raw.bitrate then { g with url := g.url ++ [raw.url] } else g
  else
    acc ++ [{ bitrate := raw.bitrate, url := [raw.url], urlId := 0, details := none,
              loadError := 0, fragmentError := false, audioCodec := audioCodec,
              videoCodec := raw.videoCodec, attrsAudio := raw.attrsAudio, level := none }]

/-- The grouping loop over the whole manifest level list. -/
def groupLevels (eraseMp4a4034 : Option Nat → Bool) (raws : List RawLevel) : List Level :=
  raws.foldl (groupStep eraseMp4a4034) []

/-- `LevelController.onManifestLoaded` (source lines 60–137): group redundant
levels, drop audio-only levels when both audio+video levels are signalled,
keep only levels with supported codecs (`supAudio`/`supVideo` stand for the
external `isCodecSupportedInMp4`), then sort by bitrate, record the index of
the manifest's first bitrate, and announce the parsed manifest — or a fatal
incompatible-codecs error when nothing survives. -/
def onManifestLoaded (supAudio supVideo : Nat → Bool) (eraseMp4a4034 : Option Nat → Bool)
    (s : LCState) (rawLevels : List RawLevel) : LCState × List LCEvent :=
  let videoCodecFound := rawLevels.any (·.videoCodec.isSome)
  let audioCodecFound := rawLevels.any fun r => r.audioCodec.isSome || r.attrsAudio
  let levels := groupLevels eraseMp4a4034 rawLevels
  let levels :=
    if videoCodecFound ∧ audioCodecFound then levels.filter (·.videoCodec.isSome) else levels
  let levels := levels.filter fun l =>
    l.audioCodec.elim true supAudio && l.videoCodec.elim true supVideo
  match levels with
  | [] =>
    (s, [LCEvent.ERROR_EVT ErrType.MEDIA_ERROR ErrDetail.MANIFEST_INCOMPATIBLE_CODECS_ERROR
          true (some ErrReason.noCompatibleLevel)])
  | l0 :: _ =>
    let bitrateStart := l0.bitrate
    let sorted := levels.mergeSort fun a b => decide (a.bitrate ≤ b.bitrate)
    let firstLevel := sorted.findIdx (·.bitrate == bitrateStart)
    ({ s with levels := some sorted, firstLevel := firstLevel },
     [LCEvent.MANIFEST_PARSED firstLevel])

/-- `LevelController.onLevelRemoved` (source lines 378–380): drop the level
at the removed index. -/
def onLevelRemoved (s : LCState) (i : Nat) : LCState :=
  { s with levels := s.levels.map fun L => L.eraseIdx i }


/-! ## Audio stream controller (`src/controller/audio-stream-controller.ts`) -/

/-- The stream-controller states (`base-stream-controller.ts` `State`). -/
inductive ASState where
  | STOPPED | STARTING | IDLE | WAITING_TRACK | WAITING_INIT_PTS
  | FRAG_LOADING | FRAG_LOADING_WAITING_RETRY | KEY_LOADING
  | PARSING | PARSED | BUFFER_FLUSHING | ENDED | ERROR | PAUSED
  deriving Repr, DecidableEq

/-- The configuration fields the audio stream controller reads; the source
mutates `maxMaxBufferLength` in place, so the config lives in the controller
state.  Retry delays are in integer milliseconds. -/
structure ASCConfig where
  fragLoadingMaxRetry : Nat
  fragLoadingRetryDelay : Nat
  fragLoadingMaxRetryTimeout : Nat
  maxBufferLength : ℚ
  maxMaxBufferLength : ℚ
  deriving Repr, DecidableEq

/-- Events the audio stream controller triggers that the claims observe. -/
inductive ASCEvent where
  /-- `BUFFER_FLUSHING` with `startOffset` 0 and `endOffset` +∞ is the full
  flush; `fullRange = true` encodes the `0 … Number.POSITIVE_INFINITY` pair. -/
  | BUFFER_FLUSHING_AUDIO (fullRange : Bool)
  deriving Repr, DecidableEq

/-- The audio stream controller's mutable state, restricted to the fields the
claims touch.  `initPTS` maps a continuity counter to the discovered base
timestamp (`none` encodes a missing / non-finite entry), `videoTrackCC` is the
continuity counter of the most recent `INIT_PTS_FOUND` (initially `-1`). -/
structure ASCState where
  state : ASState
  config : ASCConfig
  fragLoadError : Nat
  retryDate : ℚ
  initPTS : Int → Option Int
  videoTrackCC : Int
  media : Option Media
  mediaBuffer : Option Media
  fragCurrentSet : Bool
  nextLoadPosition : ℚ

/-- The `WAITING_INIT_PTS` case of `doTick` (source lines 293–298): move to
`IDLE` exactly when `initPTS[videoTrackCC]` is finite. -/
def doTickWaitingInitPts (s : ASCState) : ASCState :=
  if s.state = ASState.WAITING_INIT_PTS then
    if (s.initPTS s.videoTrackCC).isSome then { s with state := ASState.IDLE } else s
  else s

/-- `AudioStreamController.onInitPtsFound` (source lines 66–77): record the
video track's base timestamp for its continuity counter, remember that
counter, and when parked in `WAITING_INIT_PTS` tick immediately (the tick
runs the `WAITING_INIT_PTS` case of `doTick`). -/
def onInitPtsFound (s : ASCState) (cc : Int) (initPTS : Int) : ASCState :=
  let s := { s with initPTS := fun c => if c = cc then some initPTS else s.initPTS c,
                    videoTrackCC := cc }
  if s.state = ASState.WAITING_INIT_PTS then doTickWaitingInitPts s else s

/-- The `WAITING_TRACK` case of `doTick` (source lines 274–281): once the
track's playlist details are available, move to `WAITING_INIT_PTS`. -/
def doTickWaitingTrack (s : ASCState) (hasTrackDetails : Bool) : ASCState :=
  if s.state = ASState.WAITING_TRACK then
    if hasTrackDetails then { s with state := ASState.WAITING_INIT_PTS } else s
  else s

/-- The fragment chosen by the `IDLE` case, reduced to what the load decision
reads: its continuity counter, whether it is the init segment
(`sn === 'initSegment'`), and its timing. -/
structure ChosenFrag where
  cc : Int
  isInitSegment : Bool
  start : ℚ
  duration : ℚ
  deriving Repr, DecidableEq

/-- What the `IDLE` load decision dispatches. -/
inductive LoadAction where
  | loadInitSegment | loadForPlayback | waitInitPts
  deriving Repr, DecidableEq

/-- The tail of the `IDLE` case of `doTick` (source lines 253–270), given the
already-chosen unencrypted fragment: record it as current, advance
`nextLoadPosition` for media fragments, and — when the fragment is not yet
loaded or an audio switch forces it — load it, unless it is a media fragment
whose continuity counter has no finite video `initPTS` and the track has no
init segment, in which case park in `WAITING_INIT_PTS` and restore
`nextLoadPosition`. -/
def idleLoadDecision (s : ASCState) (frag : ChosenFrag)
    (fragNotLoaded : Bool) (audioSwitch : Bool) (trackHasInitSegment : Bool) :
    ASCState × Option LoadAction :=
  let prevPos := s.nextLoadPosition
  let s := { s with fragCurrentSet := true }
  let s := if ¬frag.isInitSegment then
             { s with nextLoadPosition := frag.start + frag.duration }
           else s
  if audioSwitch ∨ fragNotLoaded then
    if frag.isInitSegment then
      (s, some LoadAction.loadInitSegment)
    else if trackHasInitSegment ∨ (s.initPTS frag.cc).isSome then
      (s, some LoadAction.loadForPlayback)
    else
      ({ s with state := ASState.WAITING_INIT_PTS, nextLoadPosition := prevPos },
       some LoadAction.waitInitPts)
  else
    (s, none)

/-- The payload of an `ERROR` event as the audio stream controller reads it. -/
structure ASCErrorData where
  fatal : Bool
  edetail : ErrDetail
  fragType : Option FragType
  parent : Option FragType
  deriving Repr, DecidableEq

/-- `AudioStreamController.onError` (source lines 513–595).  Fragment-load
errors on audio fragments retry with exponential backoff capped at
`fragLoadingMaxRetryTimeout` until `fragLoadingMaxRetry` retries are used,
then re-dispatch as fatal in the `ERROR` state.  Track/key load errors move
to `ERROR` or `IDLE`.  A buffer-full error while parsing either halves
`maxMaxBufferLength` (when not already below `maxBufferLength`) and resumes,
or flushes the whole audio buffer. -/
def ascOnError (s : ASCState) (d : ASCErrorData) (now : ℚ) :
    ASCState × ASCErrorData × List ASCEvent :=
  if d.fragType.elim false (· ≠ FragType.audio) then
    (s, d, [])
  else
    match d.edetail with
    | ErrDetail.FRAG_LOAD_ERROR | ErrDetail.FRAG_LOAD_TIMEOUT =>
      if ¬d.fatal then
        let loadError := if s.fragLoadError ≠ 0 then s.fragLoadError + 1 else 1
        if loadError ≤ s.config.fragLoadingMaxRetry then
          let delay := min (2 ^ (loadError - 1) * s.config.fragLoadingRetryDelay)
                           s.config.fragLoadingMaxRetryTimeout
          ({ s with fragLoadError := loadError, retryDate := now + delay,
                    state := ASState.FRAG_LOADING_WAITING_RETRY }, d, [])
        else
          ({ s with state := ASState.ERROR }, { d with fatal := true }, [])
      else
        (s, d, [])
    | ErrDetail.AUDIO_TRACK_LOAD_ERROR | ErrDetail.AUDIO_TRACK_LOAD_TIMEOUT
    | ErrDetail.KEY_LOAD_ERROR | ErrDetail.KEY_LOAD_TIMEOUT =>
      if s.state ≠ ASState.ERROR then
        ({ s with state := if d.fatal then ASState.ERROR else ASState.IDLE }, d, [])
      else
        (s, d, [])
    | ErrDetail.BUFFER_FULL_ERROR =>
      if d.parent = some FragType.audio ∧
          (s.state = ASState.PARSING ∨ s.state = ASState.PARSED) then
        match s.media with
        | none => (s, d, [])  -- unreachable: parsing requires attached media
        | some m =>
          let mediaBuffered :=
            match s.mediaBuffer with
            | some mb => isBuffered mb m.currentTime && isBuffered mb (m.currentTime + 1/2)
            | none => false
          if mediaBuffered then
            let config := s.config
            let config :=
              if config.maxMaxBufferLength ≥ config.maxBufferLength then
                { config with maxMaxBufferLength := config.maxMaxBufferLength / 2 }
              else config
            ({ s with config := config, state := ASState.IDLE }, d, [])
          else
            ({ s with fragCurrentSet := false, state := ASState.BUFFER_FLUSHING }, d,
             [ASCEvent.BUFFER_FLUSHING_AUDIO true])
      else
        (s, d, [])
    | _ => (s, d, [])

/-! ## Helper lemmas -/

theorem listModify_length {α : Type} (L : List α) (n : Nat) (f : α → α) :
    (listModify L n f).length = L.length := by
  induction L generalizing n with
  | nil => rfl
  | cons x xs ih => cases n <;> simp [listModify, ih]


theorem listModify_get_self {α : Type} (L : List α) (n : Nat) (f : α → α) :
    (listModify L n f)[n]? = (L[n]?).map f := by
  induction L generalizing n with
  | nil => rfl
  | cons x xs ih => cases n <;> simp [listModify, ih]

theorem listModify_get_ne {α : Type} (L : List α) (f : α → α) {m n : Nat} (h : m ≠ n) :
    (listModify L n f)[m]? = L[m]? := by
  induction L generalizing m n with
  | nil => rfl
  | cons x xs ih =>
    cases n with
    | zero => cases m with
      | zero => exact absurd rfl h
      | succ m => simp [listModify]
    | succ n => cases m with
      | zero => simp [listModify]
      | succ m => simpa [listModify] using ih (fun hc => h (by omega))

/-! ## C8: invalid level indices in the `level` setter -/

/-- C8: a negative index assigned to the `level` setter while a non-empty
level list is loaded triggers exactly one non-fatal error event of type
`OTHER_ERROR` with details `LEVEL_SWITCH_ERROR` and reason
`'invalid level idx'`, leaving the state (hence the current level)
unchanged and issuing no `LEVEL_LOADING`; an index at or past the number of
levels is silently ignored.  (`hcur` is the reachability fact that the
recorded current level is never negative.) -/
theorem c8_invalid_level_index
    (s : LCState) (levels : List Level) (nLo nHi : Int)
    (hl : s.levels = some levels) (_hne : levels ≠ [])
    (hneg : nLo < 0) (hcur : ∀ i, s.currentLevel = some i → 0 ≤ i)
    (hge : (levels.length : Int) ≤ nHi) :
    setLevel s nLo =
      (s, [LCEvent.ERROR_EVT ErrType.OTHER_ERROR ErrDetail.LEVEL_SWITCH_ERROR false
            (some ErrReason.invalidLevelIdx)]) ∧
    setLevel s nHi = (s, []) := by
  have hcur' : s.currentLevel ≠ some nLo := by
    intro hc
    exact absurd (hcur nLo hc) (by omega)
  constructor
  · simp only [setLevel, hl]
    rw [if_pos (by omega)]
    rw [if_pos (Or.inl hcur')]
    simp only [setLevelInternal, hl]
    rw [if_neg (by omega)]
  · simp only [setLevel, hl]
    rw [if_neg (by omega)]

/-- Concrete one-level state used by witnesses: current level 0 cached as
non-live. -/
def lcW : LCState :=
  { levels := some [{ bitrate := 500, url := [1, 2], urlId := 1,
                      details := none, loadError := 3, fragmentError := true,
                      audioCodec := none, videoCodec := some 7,
                      attrsAudio := false, level := some 0 }],
    currentLevel := some 0, manualLevel := -1, timer := none, canload := true,
    nextAutoLevel := 0, firstLevel := 0 }

/-- C8 witness: the concrete state `lcW` exercising both halves. -/
theorem c8_invalid_level_index_witness :
    setLevel lcW (-1) =
      (lcW, [LCEvent.ERROR_EVT ErrType.OTHER_ERROR ErrDetail.LEVEL_SWITCH_ERROR false
              (some ErrReason.invalidLevelIdx)]) ∧
    setLevel lcW 5 = (lcW, []) :=
  c8_invalid_level_index lcW _ (-1) 5 rfl (by decide) (by decide)
    (by intro i hi; cases Option.some.inj hi; decide) (by decide)

/-! ## C9: FRAG_LOADED resets error counters only for main fragments -/

/-- C9: a `FRAG_LOADED` for a `main` fragment whose level exists resets that
level's `loadError` to 0 and `fragmentError` to `false` and changes nothing
else (the record update keeps `urlId`, `url`, `details` and `bitrate`; all
other levels and all other controller fields are untouched); a fragment of
any other type, or a missing fragment, leaves the state unchanged. -/
theorem c9_frag_loaded_resets_only_main
    (s : LCState) (levels : List Level) (fragLevel : Nat) (l : Level) (t : FragType)
    (hl : s.levels = some levels) (hg : levels[fragLevel]? = some l)
    (ht : t ≠ FragType.main) :
    onFragLoaded s (some (FragType.main, fragLevel)) =
      { s with levels := some (listModify levels fragLevel
          fun l => { l with fragmentError := false, loadError := 0 }) } ∧
    (listModify levels fragLevel
        fun l => { l with fragmentError := false, loadError := 0 })[fragLevel]? =
      some { l with fragmentError := false, loadError := 0 } ∧
    (∀ j, j ≠ fragLevel →
      (listModify levels fragLevel
          fun l => { l with fragmentError := false, loadError := 0 })[j]? =
        levels[j]?) ∧
    onFragLoaded s (some (t, fragLevel)) = s ∧
    onFragLoaded s none = s := by
  refine ⟨?_, ?_, ?_, ?_, rfl⟩
  · simp only [onFragLoaded, hl, hg]
  · rw [listModify_get_self, hg]; rfl
  · intro j hj; exact listModify_get_ne _ _ hj
  · cases t <;> simp [onFragLoaded] at ht ⊢

/-- C9 witness: applying the theorem at `lcW` on its single level. -/
theorem c9_frag_loaded_resets_only_main_witness :
    onFragLoaded lcW (some (FragType.main, 0)) =
      { lcW with levels := some (listModify
          [{ bitrate := 500, url := [1, 2], urlId := 1,
             details := none, loadError := 3, fragmentError := true,
             audioCodec := none, videoCodec := some 7,
             attrsAudio := false, level := some 0 }] 0
          fun l => { l with fragmentError := false, loadError := 0 }) } ∧
    onFragLoaded lcW (some (FragType.audio, 0)) = lcW :=
  let h := c9_frag_loaded_resets_only_main lcW _ 0 _ FragType.audio rfl rfl (by decide)
  ⟨h.1, h.2.2.2.1⟩

/-! ## C6: when the `level` setter triggers a details load -/

/-- Does an event list contain a `LEVEL_LOADING` request? -/
def hasLevelLoading (evs : List LCEvent) : Bool :=
  evs.any fun e =>
    match e with
    | LCEvent.LEVEL_LOADING _ _ _ => true
    | _ => false

/-- C6 (amended): for a valid in-range index, the `level` setter triggers a
`LEVEL_LOADING` iff the assigned index differs from the current level or the
target's details are uncached, AND the details are uncached or live.  (The
claim's plain "uncached or live" iff fails: the setter's outer guard skips
`setLevelInternal` entirely when the index equals the current level and
details are cached, even for a live source.) -/
theorem c6_level_setter_load_iff
    (s : LCState) (levels : List Level) (newLevel : Int) (l : Level)
    (hl : s.levels = some levels) (h0 : 0 ≤ newLevel) (hlt : newLevel < levels.length)
    (hat : levelAt levels newLevel = some l) :
    hasLevelLoading (setLevel s newLevel).2 = true ↔
      ((s.currentLevel ≠ some newLevel ∨ l.details = none) ∧
       (l.details = none ∨ l.details.elim false (·.live) = true)) := by
  have hat' : levels[newLevel.toNat]? = some l := by
    simpa [levelAt, h0] using hat
  by_cases hc : s.currentLevel = some newLevel
  · rcases hd : l.details with _ | d
    · have : setLevel s newLevel =
          (({ s with timer := none }),
           [LCEvent.LEVEL_LOADING (l.url.getD l.urlId 0) newLevel l.urlId]) := by
        simp [setLevel, setLevelInternal, hl, hlt, hc, levelAt, h0, hat', hd]
      rw [this]
      simp [hasLevelLoading, hd]
    · have : setLevel s newLevel = (s, []) := by
        simp [setLevel, hl, hlt, hc, levelAt, h0, hat', hd]
      rw [this]
      simp [hasLevelLoading, hc, hd]
  · rcases hd : l.details with _ | d
    · have : (setLevel s newLevel).2 =
          [LCEvent.LEVEL_SWITCH newLevel, LCEvent.LEVEL_SWITCHING newLevel,
           LCEvent.LEVEL_LOADING (l.url.getD l.urlId 0) newLevel l.urlId] := by
        simp [setLevel, setLevelInternal, hl, hlt, hc, levelAt, h0, hat', hd,
              listModify_get_self]
      rw [this]
      simp [hasLevelLoading, hc, hd]
    · by_cases hlive : d.live
      · have : (setLevel s newLevel).2 =
            [LCEvent.LEVEL_SWITCH newLevel, LCEvent.LEVEL_SWITCHING newLevel,
             LCEvent.LEVEL_LOADING (l.url.getD l.urlId 0) newLevel l.urlId] := by
          simp [setLevel, setLevelInternal, hl, hlt, hc, levelAt, h0, hat', hd,
                listModify_get_self, hlive]
        rw [this]
        simp [hasLevelLoading, hc, hd, hlive]
      · have : (setLevel s newLevel).2 =
            [LCEvent.LEVEL_SWITCH newLevel, LCEvent.LEVEL_SWITCHING newLevel] := by
          simp [setLevel, setLevelInternal, hl, hlt, hc, levelAt, h0, hat', hd,
                listModify_get_self, hlive]
        rw [this]
        simp [hasLevelLoading, hc, hd, hlive]

/-- The live level of the C6 counterexample. -/
def c6lvl : Level :=
  { bitrate := 500, url := [1], urlId := 0,
    details := some { live := true, endSN := 7, targetduration := 10,
                      averagetargetduration := none },
    loadError := 0, fragmentError := false, audioCodec := none,
    videoCodec := some 7, attrsAudio := false, level := some 0 }

/-- The C6 counterexample state: level 0 is current and its cached details
are live. -/
def c6cex : LCState :=
  { levels := some [c6lvl], currentLevel := some 0, manualLevel := -1,
    timer := none, canload := true, nextAutoLevel := 0, firstLevel := 0 }

/-- C6 counterexample: assigning the already-current level 0, whose cached
details are live, triggers no event at all — in particular no
`LEVEL_LOADING` — refuting "setting the current level to a live source always
triggers a (re)load". -/
theorem c6_live_reassign_no_load :
    c6lvl.details.elim false (·.live) = true ∧
    levelAt [c6lvl] 0 = some c6lvl ∧
    c6cex.currentLevel = some 0 ∧
    (setLevel c6cex 0).2 = [] ∧
    hasLevelLoading (setLevel c6cex 0).2 = false := by
  refine ⟨rfl, rfl, rfl, ?_, ?_⟩ <;> rfl

/-- C6 witness: the amended iff applied at a fresh state whose target level
has no cached details (load triggered). -/
theorem c6_level_setter_load_iff_witness :
    hasLevelLoading (setLevel { lcW with currentLevel := none } 0).2 = true :=
  (c6_level_setter_load_iff { lcW with currentLevel := none } _ 0 _ rfl (by decide)
      (by decide) rfl).2 ⟨by simp, Or.inl rfl⟩

/-! ## C3: redundant-URL failover order -/

/-- The error payload of a non-fatal fragment-load error on level `i`. -/
def fragErrData (i : Nat) : LCErrorData :=
  { fatal := false, etype := ErrType.NETWORK_ERROR, edetail := ErrDetail.FRAG_LOAD_ERROR,
    fragLevel := some i, contextLevel := none, dataLevel := none, levelRetry := false }

/-- One non-fatal fragment-load error handled by the level controller. -/
def lcErrStep (cfg : LCConfig) (media : Option Media) (i : Nat) (s : LCState) : LCState :=
  (lcOnError cfg media s (fragErrData i)).1

/-- While untried redundant URLs remain (`loadError + 1 < url.length` with
more than one URL), a fragment error rotates `urlId` and drops the cached
details. -/
theorem lcErrStep_rotate (cfg : LCConfig) (media : Option Media)
    (s : LCState) (levels : List Level) (i : Nat) (l : Level)
    (hl : s.levels = some levels) (hg : levels[i]? = some l)
    (h1 : 1 < l.url.length) (h2 : l.loadError + 1 < l.url.length) :
    lcErrStep cfg media i s =
      { s with levels := some (levels.set i
          { l with loadError := l.loadError + 1, fragmentError := true,
                   urlId := (l.urlId + 1) % l.url.length, details := none }) } := by
  simp only [lcErrStep, lcOnError, fragErrData, lcErrorTarget, hl, hg]
  rw [if_neg (by simp)]
  rw [if_pos ⟨h1, h2⟩]

/-- Once every redundant URL has been tried, a further fragment error in auto
mode on a non-lowest level requests a switch down instead of rotating. -/
theorem lcErrStep_switchDown (cfg : LCConfig) (media : Option Media)
    (s : LCState) (levels : List Level) (i : Nat) (l : Level)
    (hl : s.levels = some levels) (hg : levels[i]? = some l)
    (h2 : ¬(1 < l.url.length ∧ l.loadError + 1 < l.url.length))
    (hman : s.manualLevel = -1) (hi0 : i ≠ 0) :
    lcErrStep cfg media i s =
      { s with levels := some (levels.set i
          { l with loadError := l.loadError + 1, fragmentError := true }),
               nextAutoLevel := max 0 ((i : Int) - 1) } := by
  simp only [lcErrStep, lcOnError, fragErrData, lcErrorTarget, hl, hg]
  rw [if_neg (by simp)]
  rw [if_neg (by exact_mod_cast h2)]
  rw [if_pos ⟨hman, hi0⟩]

/-- C3: starting from a zero error counter on a level with `N > 1` redundant
URLs, each of the first `N − 1` consecutive non-fatal fragment-load errors
rotates `urlId` by one more step modulo `N` and leaves the details
invalidated, and the `N`-th consecutive error stops rotating (`urlId` keeps
the value reached after `N − 1` rotations) and — auto mode, level not 0 —
requests an automatic switch down to `i − 1`. -/
theorem c3_redundant_failover (cfg : LCConfig) (media : Option Media)
    (s : LCState) (levels : List Level) (i : Nat) (l0 : Level) (N : Nat)
    (hl : s.levels = some levels) (hg : levels[i]? = some l0)
    (hle : l0.loadError = 0) (hN : l0.url.length = N) (hN1 : 1 < N)
    (hman : s.manualLevel = -1) (hi0 : i ≠ 0) :
    (∀ k, 1 ≤ k → k ≤ N - 1 →
      (lcErrStep cfg media i)^[k] s =
        { s with levels := some (levels.set i
            { l0 with loadError := k, fragmentError := true,
                      urlId := (l0.urlId + k) % N, details := none }) }) ∧
    (lcErrStep cfg media i)^[N] s =
      { s with levels := some (levels.set i
          { l0 with loadError := N, fragmentError := true,
                    urlId := (l0.urlId + (N - 1)) % N, details := none }),
               nextAutoLevel := max 0 ((i : Int) - 1) } := by
  have hiLen : i < levels.length := by
    rcases Nat.lt_or_ge i levels.length with h | h
    · exact h
    · rw [List.getElem?_eq_none h] at hg; cases hg
  have hmod : ∀ a : Nat, (a % N + 1) % N = (a + 1) % N := by
    intro a
    conv_rhs => rw [Nat.add_mod]
    rw [Nat.mod_eq_of_lt (a := 1) (by omega)]
  have main : ∀ k, 1 ≤ k → k ≤ N - 1 →
      (lcErrStep cfg media i)^[k] s =
        { s with levels := some (levels.set i
            { l0 with loadError := k, fragmentError := true,
                      urlId := (l0.urlId + k) % N, details := none }) } := by
    intro k
    induction k with
    | zero => omega
    | succ k ih =>
      intro _ hk
      rcases Nat.eq_zero_or_pos k with rfl | hkpos
      · rw [Function.iterate_one]
        rw [lcErrStep_rotate cfg media s levels i l0 hl hg (by omega) (by omega)]
        simp [hle, hN]
      · rw [Function.iterate_succ_apply', ih hkpos (by omega)]
        rw [lcErrStep_rotate cfg media _ _ i
              { l0 with loadError := k, fragmentError := true,
                        urlId := (l0.urlId + k) % N, details := none }
              rfl (List.getElem?_set_self hiLen) (by simpa using hN ▸ hN1)
              (by simp [hN]; omega)]
        simp only [List.set_set]
        congr 2
        simp [hN, hmod, Nat.add_assoc]
  refine ⟨main, ?_⟩
  have hstep : (lcErrStep cfg media i)^[N] s =
      lcErrStep cfg media i ((lcErrStep cfg media i)^[N - 1] s) := by
    conv_lhs => rw [show N = (N - 1) + 1 by omega]
    rw [Function.iterate_succ_apply']
  rw [hstep, main (N - 1) (by omega) le_rfl]
  rw [lcErrStep_switchDown cfg media
        { s with levels := some (levels.set i
            { l0 with loadError := N - 1, fragmentError := true,
                      urlId := (l0.urlId + (N - 1)) % N, details := none }) }
        (levels.set i
            { l0 with loadError := N - 1, fragmentError := true,
                      urlId := (l0.urlId + (N - 1)) % N, details := none }) i
        { l0 with loadError := N - 1, fragmentError := true,
                  urlId := (l0.urlId + (N - 1)) % N, details := none }
        rfl (List.getElem?_set_self hiLen) (by simp [hN]; omega) hman hi0]
  simp only [List.set_set]
  have hN' : N - 1 + 1 = N := by omega
  rw [hN']

/-- A filler first level for the C3 witness state. -/
def c3lvlA : Level :=
  { bitrate := 300, url := [20], urlId := 0, details := none, loadError := 0,
    fragmentError := false, audioCodec := none, videoCodec := some 7,
    attrsAudio := false, level := none }

/-- The C3 witness target level: three redundant URLs, no errors yet. -/
def c3lvl : Level :=
  { bitrate := 800, url := [10, 11, 12], urlId := 0,
    details := some { live := false, endSN := 1, targetduration := 6,
                      averagetargetduration := none },
    loadError := 0, fragmentError := false, audioCodec := none,
    videoCodec := some 7, attrsAudio := false, level := some 1 }

/-- The C3 witness state: auto mode, target level index 1. -/
def c3s : LCState :=
  { levels := some [c3lvlA, c3lvl], currentLevel := some 1, manualLevel := -1,
    timer := none, canload := true, nextAutoLevel := 5, firstLevel := 0 }

/-- C3 witness: with `N = 3`, the second error ends on the third URL and the
third error switches down to level 0. -/
theorem c3_redundant_failover_witness :
    (lcErrStep ⟨1000⟩ none 1)^[2] c3s =
      { c3s with levels := some ([c3lvlA, c3lvl].set 1
          { c3lvl with loadError := 2, fragmentError := true,
                       urlId := (c3lvl.urlId + 2) % 3, details := none }) } ∧
    (lcErrStep ⟨1000⟩ none 1)^[3] c3s =
      { c3s with levels := some ([c3lvlA, c3lvl].set 1
          { c3lvl with loadError := 3, fragmentError := true,
                       urlId := (c3lvl.urlId + (3 - 1)) % 3, details := none }),
                 nextAutoLevel := max 0 ((1 : Int) - 1) } :=
  let h := c3_redundant_failover ⟨1000⟩ none c3s [c3lvlA, c3lvl] 1 c3lvl 3
    rfl rfl rfl rfl (by decide) rfl (by decide)
  ⟨h.1 2 (by decide) (by decide), h.2⟩

/-! ## C10: the `urlId` invariant -/

/-- The claimed invariant: the selected URL index stays within the redundant
URL list. -/
def LevelUrlInv (l : Level) : Prop := l.urlId < l.url.length

/-- The invariant lifted to the optional level list. -/
def levelsInv (o : Option (List Level)) : Prop :=
  ∀ L, o = some L → ∀ l ∈ L, LevelUrlInv l

theorem levelsInv_some {L : List Level} (h : ∀ l ∈ L, LevelUrlInv l) :
    levelsInv (some L) := by
  intro L' hL'
  injection hL' with e
  subst e
  exact h

theorem levelsInv_some_elim {L : List Level} (h : levelsInv (some L)) :
    ∀ l ∈ L, LevelUrlInv l := h L rfl

/-- Levels produced by the redundant-level grouping always carry `urlId = 0`
inside a non-empty URL list. -/
theorem groupLevels_urlId_zero (eraseMp4a4034 : Option Nat → Bool)
    (raws : List RawLevel) :
    ∀ l ∈ groupLevels eraseMp4a4034 raws, l.urlId = 0 ∧ LevelUrlInv l := by
  suffices h : ∀ raws acc, (∀ l ∈ acc, l.urlId = 0 ∧ LevelUrlInv l) →
      ∀ l ∈ List.foldl (groupStep eraseMp4a4034) acc raws, l.urlId = 0 ∧ LevelUrlInv l by
    exact h raws [] (by simp)
  intro raws
  induction raws with
  | nil => intro acc hacc; simpa using hacc
  | cons raw rest ih =>
    intro acc hacc
    refine ih _ ?_
    intro l hl
    simp only [groupStep] at hl
    split at hl
    · rcases List.mem_map.mp hl with ⟨g, hg, rfl⟩
      rcases hacc g hg with ⟨h1, h2⟩
      rw [LevelUrlInv] at h2
      split <;> simp_all [LevelUrlInv]
    · rcases List.mem_append.mp hl with hg | hg
      · exact hacc l hg
      · rcases List.mem_singleton.mp hg with rfl
        exact ⟨rfl, by simp [LevelUrlInv]⟩

/-- `levels.set` preserves the invariant when the replacement satisfies it. -/
theorem levelsInv_set {L : List Level} {i : Nat} {x : Level}
    (hL : ∀ l ∈ L, LevelUrlInv l) (hx : LevelUrlInv x) :
    ∀ l ∈ L.set i x, LevelUrlInv l := by
  intro l hl
  rcases List.mem_or_eq_of_mem_set hl with h | rfl
  · exact hL l h
  · exact hx

/-- `listModify` preserves the invariant when the update does. -/
theorem levelsInv_listModify (f : Level → Level)
    (hf : ∀ l, LevelUrlInv l → LevelUrlInv (f l)) :
    ∀ (L : List Level) (i : Nat), (∀ l ∈ L, LevelUrlInv l) →
      ∀ l ∈ listModify L i f, LevelUrlInv l
  | [], _, _ => by simp [listModify]
  | x :: xs, 0, hL => by
    intro l hl
    rcases List.mem_cons.mp hl with rfl | h
    · exact hf x (hL x (by simp))
    · exact hL l (List.mem_cons_of_mem _ h)
  | x :: xs, i + 1, hL => by
    intro l hl
    rcases List.mem_cons.mp hl with rfl | h
    · exact hL l (by simp)
    · exact levelsInv_listModify f hf xs i
        (fun a ha => hL a (List.mem_cons_of_mem _ ha)) l h

theorem lcOnError_levelsInv (cfg : LCConfig) (media : Option Media)
    (s : LCState) (d : LCErrorData) (h : levelsInv s.levels) :
    levelsInv (lcOnError cfg media s d).1.levels := by
  unfold lcOnError
  split
  · split <;> exact h
  · split
    rename_i levelIndex? levelError fragmentError hsplit
    split
    · rename_i levelIndex levels hs
      have hL : ∀ l ∈ levels, LevelUrlInv l := by
        rw [hs] at h; exact levelsInv_some_elim h
      split
      · exact h
      · rename_i l hl
        have hlmem : l ∈ levels := by
          rcases List.getElem?_eq_some_iff.mp hl with ⟨hlt, hEq⟩
          exact hEq ▸ List.getElem_mem hlt
        have hlinv := hL l hlmem
        dsimp only
        split
        · rename_i hcond
          refine levelsInv_some (levelsInv_set hL ?_)
          simpa [LevelUrlInv] using Nat.mod_lt _ (by omega)
        · split
          · exact levelsInv_some (levelsInv_set hL hlinv)
          · split
            · split <;> exact levelsInv_some (levelsInv_set hL hlinv)
            · split
              · split
                · exact levelsInv_some (levelsInv_set hL hlinv)
                · exact levelsInv_some (levelsInv_set hL hlinv)
              · exact levelsInv_some (levelsInv_set hL hlinv)
    · exact h

/-- A level whose `urlId` and `url` are untouched keeps the invariant. -/
theorem LevelUrlInv_of_counters {l : Level} (h : LevelUrlInv l)
    (le : Nat) (fe : Bool) :
    LevelUrlInv { l with loadError := le, fragmentError := fe } := h

theorem onFragLoaded_levelsInv (s : LCState) (frag : Option (FragType × Nat))
    (h : levelsInv s.levels) : levelsInv (onFragLoaded s frag).levels := by
  unfold onFragLoaded
  split
  · rename_i t n
    split
    · exact h
    · rename_i levels hs
      split
      · refine levelsInv_some (levelsInv_listModify
            (fun l => { l with fragmentError := false, loadError := 0 })
            (fun l hl => hl) levels n ?_)
        rw [hs] at h; exact levelsInv_some_elim h
      · exact h
  · exact h

theorem onLevelLoaded_levelsInv (s : LCState) (levelId : Int) (nd : LevelDetails)
    (treq now : ℚ) (h : levelsInv s.levels) :
    levelsInv (onLevelLoaded s levelId nd treq now).levels := by
  unfold onLevelLoaded
  split
  · split
    · exact h
    · rename_i levels hs
      split
      · exact h
      · rename_i curLevel hAt
        have hL : ∀ l ∈ levels, LevelUrlInv l := by
          rw [hs] at h; exact levelsInv_some_elim h
        have hmod : levelsInv (some (if curLevel.fragmentError = false then
            listModify levels levelId.toNat fun l => { l with loadError := 0 }
          else levels)) := by
          split
          · exact levelsInv_some (levelsInv_listModify
              (fun l => { l with loadError := 0 }) (fun l hl => hl) levels _ hL)
          · exact levelsInv_some hL
        dsimp only
        split <;> exact hmod
  · exact h

theorem setLevelInternal_levelsInv (s : LCState) (n : Int)
    (h : levelsInv s.levels) : levelsInv (setLevelInternal s n).1.levels := by
  unfold setLevelInternal
  split
  · exact h
  · rename_i levels hs
    have hL : ∀ l ∈ levels, LevelUrlInv l := by
      rw [hs] at h; exact levelsInv_some_elim h
    split
    · have hmod : levelsInv (some (listModify levels n.toNat
          fun l => { l with level := some n })) :=
        levelsInv_some (levelsInv_listModify (fun l => { l with level := some n })
          (fun l hl => hl) levels _ hL)
      dsimp only
      repeat' split
      all_goals first
        | exact hmod
        | exact h
    · exact h

theorem setLevel_levelsInv (s : LCState) (n : Int)
    (h : levelsInv s.levels) : levelsInv (setLevel s n).1.levels := by
  unfold setLevel
  split
  · exact h
  · split
    · split
      · exact setLevelInternal_levelsInv s n h
      · exact h
    · exact h

theorem onLevelRemoved_levelsInv (s : LCState) (j : Nat)
    (h : levelsInv s.levels) : levelsInv (onLevelRemoved s j).levels := by
  unfold onLevelRemoved
  cases hs : s.levels with
  | none => intro L hL; simp [hs] at hL
  | some L0 =>
    intro L hL
    simp only [hs, Option.map_some] at hL
    injection hL with e
    subst e
    intro l hl
    exact h L0 hs l (List.mem_of_mem_eraseIdx hl)

theorem onManifestLoaded_levelsInv (supA supV : Nat → Bool)
    (eraseMp4a4034 : Option Nat → Bool) (s : LCState) (raws : List RawLevel)
    (h : levelsInv s.levels) :
    levelsInv (onManifestLoaded supA supV eraseMp4a4034 s raws).1.levels := by
  unfold onManifestLoaded
  dsimp only
  split
  · exact h
  · refine levelsInv_some ?_
    intro l hl
    rw [List.mem_mergeSort] at hl
    have hl1 := (List.mem_filter.mp hl).1
    have hl2 : l ∈ groupLevels eraseMp4a4034 raws := by
      revert hl1
      split
      · intro hx; exact (List.mem_filter.mp hx).1
      · intro hx; exact hx
    exact (groupLevels_urlId_zero eraseMp4a4034 raws l hl2).2

/-- C10: `urlId` always indexes into the redundant URL list.  Levels built by
the manifest-load grouping start with `urlId = 0` inside a non-empty URL
list, and every handler of the level controller — including the redundant-URL
rotation `(urlId + 1) % url.length` in `onError` — preserves
`urlId < url.length`. -/
theorem c10_urlId_invariant
    (supA supV : Nat → Bool) (eraseMp4a4034 : Option Nat → Bool)
    (cfg : LCConfig) (media : Option Media) (s : LCState)
    (raws : List RawLevel) (d : LCErrorData) (frag : Option (FragType × Nat))
    (levelId : Int) (nd : LevelDetails) (treq now : ℚ) (n : Int) (j : Nat)
    (hinv : levelsInv s.levels) :
    (∀ l ∈ groupLevels eraseMp4a4034 raws, l.urlId = 0 ∧ LevelUrlInv l) ∧
    levelsInv (onManifestLoaded supA supV eraseMp4a4034 s raws).1.levels ∧
    levelsInv (lcOnError cfg media s d).1.levels ∧
    levelsInv (onFragLoaded s frag).levels ∧
    levelsInv (onLevelLoaded s levelId nd treq now).levels ∧
    levelsInv (setLevel s n).1.levels ∧
    levelsInv (onLevelRemoved s j).levels :=
  ⟨fun l hl => ⟨(groupLevels_urlId_zero eraseMp4a4034 raws l hl).1,
      (groupLevels_urlId_zero eraseMp4a4034 raws l hl).2⟩,
   onManifestLoaded_levelsInv supA supV eraseMp4a4034 s raws hinv,
   lcOnError_levelsInv cfg media s d hinv,
   onFragLoaded_levelsInv s frag hinv,
   onLevelLoaded_levelsInv s levelId nd treq now hinv,
   setLevel_levelsInv s n hinv,
   onLevelRemoved_levelsInv s j hinv⟩

/-- C10 witness: the invariant survives a manifest load and a fragment error
at the concrete state `c3s`. -/
theorem c10_urlId_invariant_witness :
    levelsInv (onManifestLoaded (fun _ => true) (fun _ => true) (fun _ => false) c3s
      [⟨500, 1, none, some 7, false⟩, ⟨500, 2, none, some 7, false⟩]).1.levels ∧
    levelsInv (lcOnError ⟨1000⟩ none c3s (fragErrData 1)).1.levels :=
  let h := c10_urlId_invariant (fun _ => true) (fun _ => true) (fun _ => false)
    ⟨1000⟩ none c3s [⟨500, 1, none, some 7, false⟩, ⟨500, 2, none, some 7, false⟩]
    (fragErrData 1) none 0 ⟨false, 0, 6, none⟩ 0 0 0 0
    (by intro L hL; cases hL; exact (by decide : ∀ l ∈ [c3lvlA, c3lvl], l.urlId < l.url.length))
  ⟨h.2.1, h.2.2.1⟩

/-! ## C4: live-playlist reload interval -/

/-- The duration the reload interval is based on: `averagetargetduration`
when present and truthy (non-zero), else `targetduration`. -/
def baseDuration (nd : LevelDetails) : ℚ :=
  match nd.averagetargetduration with
  | some a => if a = 0 then nd.targetduration else a
  | none => nd.targetduration

/-- C4 (amended): for a playlist load of the current level, a live playlist
arms the reload timer with `baseDuration × 1000` ms — the average target
duration when the playlist carries one, else the target duration — halved
when previous details exist with an unchanged end sequence number, minus the
request latency, rounded and floored at 1000 ms; a non-live playlist clears
the timer. -/
theorem c4_live_reload_interval
    (s : LCState) (levels : List Level) (i : Int) (curLevel : Level)
    (nd : LevelDetails) (treq now : ℚ)
    (hcur : s.currentLevel = some i) (hl : s.levels = some levels)
    (hat : levelAt levels i = some curLevel) :
    (nd.live = true →
      (onLevelLoaded s i nd treq now).timer =
        some (((max 1000 (jsRound
          ((if curLevel.details.elim false (fun cur => nd.endSN = cur.endSN)
            then 1000 * baseDuration nd / 2 else 1000 * baseDuration nd)
           - (now - treq)))) : Int)) ) ∧
    (nd.live = false → (onLevelLoaded s i nd treq now).timer = none) := by
  unfold onLevelLoaded
  rw [if_pos hcur.symm]
  simp only [hl, hat, baseDuration]
  constructor
  · intro hlive
    split
    · simp [baseDuration]
    · simp_all
  · intro hlive
    split
    · simp_all
    · rfl

/-- The C4 counterexample level: current level 0, no cached details. -/
def c4lvl : Level :=
  { bitrate := 500, url := [1], urlId := 0, details := none, loadError := 0,
    fragmentError := false, audioCodec := none, videoCodec := some 7,
    attrsAudio := false, level := some 0 }

/-- The C4 counterexample state. -/
def c4s : LCState :=
  { levels := some [c4lvl], currentLevel := some 0, manualLevel := -1,
    timer := none, canload := true, nextAutoLevel := 0, firstLevel := 0 }

/-- The C4 counterexample playlist: live, `averagetargetduration = 2`,
`targetduration = 10`. -/
def c4nd : LevelDetails :=
  { live := true, endSN := 5, targetduration := 10, averagetargetduration := some 2 }

/-- C4 counterexample: with zero latency and no previous details, the armed
interval is `averagetargetduration × 1000 = 2000` ms, not the claimed
`target-duration × 1000 = 10000` ms — the code prefers
`averagetargetduration` when present. -/
theorem c4_average_duration_preferred :
    (onLevelLoaded c4s 0 c4nd 0 0).timer = some 2000 ∧
    c4nd.targetduration * 1000 = 10000 ∧ (2000 : ℚ) ≠ 10000 := by
  refine ⟨?_, by norm_num [c4nd], by norm_num⟩
  norm_num [onLevelLoaded, c4s, c4nd, c4lvl, levelAt, jsRound]

/-- C4 witness: the amended formula applied at the concrete input (live and
non-live). -/
theorem c4_live_reload_interval_witness :
    (onLevelLoaded c4s 0 c4nd 0 0).timer = some 2000 ∧
    (onLevelLoaded c4s 0 { c4nd with live := false } 0 0).timer = none := by
  have h := c4_live_reload_interval c4s [c4lvl] 0 c4lvl c4nd 0 0 rfl rfl rfl
  have h' := c4_live_reload_interval c4s [c4lvl] 0 c4lvl { c4nd with live := false }
    0 0 rfl rfl rfl
  refine ⟨(h.1 rfl).trans ?_, h'.2 rfl⟩
  norm_num [c4lvl, c4nd, baseDuration, jsRound]

/-! ## C2: fragment-load retry backoff -/

/-- A non-fatal audio fragment-load error payload. -/
def ascFragErr : ASCErrorData :=
  { fatal := false, edetail := ErrDetail.FRAG_LOAD_ERROR,
    fragType := some FragType.audio, parent := none }

/-- One non-fatal audio fragment-load error handled by the controller. -/
def ascErrStep (now : ℚ) (s : ASCState) : ASCState :=
  (ascOnError s ascFragErr now).1

/-- The incremented counter of the handler (`let loadError = ...; if
(loadError) loadError++ else loadError = 1`) is always the old value + 1. -/
theorem ascLoadError_incr (m : Nat) : (if m ≠ 0 then m + 1 else 1) = m + 1 := by
  split <;> omega

/-- Within the retry budget, a fragment error moves to
`FRAG_LOADING_WAITING_RETRY` with the capped exponential delay. -/
theorem ascErrStep_retry (s : ASCState) (now : ℚ)
    (h : s.fragLoadError + 1 ≤ s.config.fragLoadingMaxRetry) :
    ascErrStep now s =
      { s with fragLoadError := s.fragLoadError + 1,
               retryDate := now + ((min (2 ^ s.fragLoadError * s.config.fragLoadingRetryDelay)
                 s.config.fragLoadingMaxRetryTimeout : Nat) : ℚ),
               state := ASState.FRAG_LOADING_WAITING_RETRY } := by
  unfold ascErrStep ascOnError
  simp only [ascFragErr]
  rw [ascLoadError_incr, if_pos h]
  simp

/-- Beyond the retry budget, a fragment error re-dispatches as fatal and
enters the `ERROR` state. -/
theorem ascErrStep_fatal (s : ASCState) (now : ℚ)
    (h : ¬(s.fragLoadError + 1 ≤ s.config.fragLoadingMaxRetry)) :
    (ascOnError s ascFragErr now).1 = { s with state := ASState.ERROR } ∧
    (ascOnError s ascFragErr now).2.1.fatal = true := by
  unfold ascOnError
  simp only [ascFragErr]
  rw [ascLoadError_incr, if_neg h]
  simp

/-- C2: starting from a zero retry counter, the `k`-th consecutive non-fatal
audio fragment-load error (for `k` up to `fragLoadingMaxRetry`) schedules a
retry at `now + min(fragLoadingRetryDelay × 2^(k−1), fragLoadingMaxRetryTimeout)`
in state `FRAG_LOADING_WAITING_RETRY`; that delay sequence is non-decreasing
in `k` and capped at the configured maximum; and the first error beyond the
ceiling re-marks the payload fatal, entering the `ERROR` state. -/
theorem c2_frag_retry_backoff (s : ASCState) (now : ℚ)
    (h0 : s.fragLoadError = 0) :
    (∀ k, 1 ≤ k → k ≤ s.config.fragLoadingMaxRetry →
      (ascErrStep now)^[k] s =
        { s with fragLoadError := k,
                 retryDate := now + ((min (2 ^ (k - 1) * s.config.fragLoadingRetryDelay)
                   s.config.fragLoadingMaxRetryTimeout : Nat) : ℚ),
                 state := ASState.FRAG_LOADING_WAITING_RETRY }) ∧
    (∀ k, min (2 ^ (k - 1) * s.config.fragLoadingRetryDelay)
            s.config.fragLoadingMaxRetryTimeout ≤
          min (2 ^ k * s.config.fragLoadingRetryDelay)
            s.config.fragLoadingMaxRetryTimeout ∧
       min (2 ^ (k - 1) * s.config.fragLoadingRetryDelay)
            s.config.fragLoadingMaxRetryTimeout ≤
          s.config.fragLoadingMaxRetryTimeout) ∧
    (ascOnError ((ascErrStep now)^[s.config.fragLoadingMaxRetry] s) ascFragErr now).1.state =
        ASState.ERROR ∧
    (ascOnError ((ascErrStep now)^[s.config.fragLoadingMaxRetry] s) ascFragErr now).2.1.fatal =
        true := by
  have main : ∀ k, 1 ≤ k → k ≤ s.config.fragLoadingMaxRetry →
      (ascErrStep now)^[k] s =
        { s with fragLoadError := k,
                 retryDate := now + ((min (2 ^ (k - 1) * s.config.fragLoadingRetryDelay)
                   s.config.fragLoadingMaxRetryTimeout : Nat) : ℚ),
                 state := ASState.FRAG_LOADING_WAITING_RETRY } := by
    intro k
    induction k with
    | zero => omega
    | succ k ih =>
      intro _ hk
      rcases Nat.eq_zero_or_pos k with rfl | hkpos
      · rw [Function.iterate_one, ascErrStep_retry s now (by omega)]
        rw [h0]
      · rw [Function.iterate_succ_apply', ih hkpos (by omega)]
        rw [ascErrStep_retry _ now (by simpa using hk)]
        simp
  refine ⟨main, ?_, ?_, ?_⟩
  · intro k
    constructor
    · exact min_le_min (Nat.mul_le_mul_right _ (Nat.pow_le_pow_right (by omega) (by omega)))
        le_rfl
    · exact min_le_right _ _
  · rcases Nat.eq_zero_or_pos s.config.fragLoadingMaxRetry with hz | hpos
    · rw [hz, Function.iterate_zero_apply, (ascErrStep_fatal s now (by omega)).1]
    · have hfatal := ascErrStep_fatal
        { s with
          fragLoadError := s.config.fragLoadingMaxRetry,
          retryDate := now + ((min (2 ^ (s.config.fragLoadingMaxRetry - 1) *
            s.config.fragLoadingRetryDelay) s.config.fragLoadingMaxRetryTimeout : Nat) : ℚ),
          state := ASState.FRAG_LOADING_WAITING_RETRY }
        now (by dsimp only; omega)
      rw [main _ hpos le_rfl, hfatal.1]
  · rcases Nat.eq_zero_or_pos s.config.fragLoadingMaxRetry with hz | hpos
    · rw [hz, Function.iterate_zero_apply]
      exact (ascErrStep_fatal s now (by omega)).2
    · have hfatal := ascErrStep_fatal
        { s with
          fragLoadError := s.config.fragLoadingMaxRetry,
          retryDate := now + ((min (2 ^ (s.config.fragLoadingMaxRetry - 1) *
            s.config.fragLoadingRetryDelay) s.config.fragLoadingMaxRetryTimeout : Nat) : ℚ),
          state := ASState.FRAG_LOADING_WAITING_RETRY }
        now (by dsimp only; omega)
      rw [main _ hpos le_rfl]
      exact hfatal.2

/-- A concrete audio-stream-controller state: retry budget 3, base delay
1000 ms, timeout cap 3000 ms, counter at 0. -/
def ascW : ASCState :=
  { state := ASState.FRAG_LOADING,
    config := { fragLoadingMaxRetry := 3, fragLoadingRetryDelay := 1000,
                fragLoadingMaxRetryTimeout := 3000,
                maxBufferLength := 30, maxMaxBufferLength := 600 },
    fragLoadError := 0, retryDate := 0, initPTS := fun _ => none,
    videoTrackCC := -1, media := none, mediaBuffer := none,
    fragCurrentSet := true, nextLoadPosition := 0 }

/-- C2 witness: at `ascW` the third error is scheduled with the capped delay
`min(4000, 3000) = 3000` and the fourth error goes fatal. -/
theorem c2_frag_retry_backoff_witness :
    (ascErrStep 50)^[3] ascW =
      { ascW with fragLoadError := 3,
                  retryDate := 50 + ((min (2 ^ (3 - 1) * ascW.config.fragLoadingRetryDelay)
                    ascW.config.fragLoadingMaxRetryTimeout : Nat) : ℚ),
                  state := ASState.FRAG_LOADING_WAITING_RETRY } ∧
    (ascOnError ((ascErrStep 50)^[ascW.config.fragLoadingMaxRetry] ascW) ascFragErr 50).1.state =
      ASState.ERROR :=
  let h := c2_frag_retry_backoff ascW 50 rfl
  ⟨h.1 3 (by decide) (by decide), h.2.2.1⟩

/-! ## C5: buffer-full recovery -/

/-- The `mediaBuffered` test of the buffer-full case: the audio source
buffer reports the playhead — and half a second beyond it — buffered. -/
def ascMediaBuffered (s : ASCState) (m : Media) : Bool :=
  match s.mediaBuffer with
  | some mb => isBuffered mb m.currentTime && isBuffered mb (m.currentTime + 1/2)
  | none => false

/-- Case analysis of the `BUFFER_FULL_ERROR` arm of
`AudioStreamController.onError` (source lines 565–591). -/
theorem ascOnError_bufferFull_cases (s : ASCState) (d : ASCErrorData) (now : ℚ) (m : Media)
    (hd : d.edetail = ErrDetail.BUFFER_FULL_ERROR) (hp : d.parent = some FragType.audio)
    (hft : d.fragType = none) (hstate : s.state = ASState.PARSING ∨ s.state = ASState.PARSED)
    (hm : s.media = some m) :
    (ascMediaBuffered s m = true →
      (ascOnError s d now).1.state = ASState.IDLE ∧
      (s.config.maxMaxBufferLength ≥ s.config.maxBufferLength →
        (ascOnError s d now).1.config.maxMaxBufferLength = s.config.maxMaxBufferLength / 2) ∧
      (¬s.config.maxMaxBufferLength ≥ s.config.maxBufferLength →
        (ascOnError s d now).1.config = s.config) ∧
      (ascOnError s d now).2.2 = []) ∧
    (ascMediaBuffered s m = false →
      (ascOnError s d now).1.state = ASState.BUFFER_FLUSHING ∧
      (ascOnError s d now).1.fragCurrentSet = false ∧
      (ascOnError s d now).1.config = s.config ∧
      (ascOnError s d now).2.2 = [ASCEvent.BUFFER_FLUSHING_AUDIO true]) := by
  unfold ascOnError
  rw [if_neg (by simp [hft])]
  rw [hd]
  dsimp only
  rw [if_pos ⟨hp, hstate⟩]
  rw [hm]
  dsimp only
  constructor
  · intro hb
    rw [show (match s.mediaBuffer with
        | some mb => isBuffered mb m.currentTime && isBuffered mb (m.currentTime + 1/2)
        | none => false) = true from hb]
    rw [if_pos rfl]
    refine ⟨?_, ?_, ?_, ?_⟩
    · split <;> rfl
    · intro hge; rw [if_pos hge]
    · intro hlt; rw [if_neg hlt]
    · split <;> rfl
  · intro hb
    rw [show (match s.mediaBuffer with
        | some mb => isBuffered mb m.currentTime && isBuffered mb (m.currentTime + 1/2)
        | none => false) = false from hb]
    rw [if_neg (by simp)]
    exact ⟨rfl, rfl, rfl, rfl⟩

/-- C5 (amended): a `BUFFER_FULL_ERROR` with parent `audio` while in
`PARSING`/`PARSED`: when the playhead **and half a second beyond it** are
buffered in the audio buffer, the controller returns to `IDLE`, halving
`maxMaxBufferLength` only when it is still at least `maxBufferLength`
(otherwise the config is untouched) and emitting no flush; when not so
buffered, it clears the current fragment, enters `BUFFER_FLUSHING` and
requests the full-range audio flush, leaving the config untouched. -/
theorem c5_buffer_full_recovery (s : ASCState) (d : ASCErrorData) (now : ℚ) (m : Media)
    (hd : d.edetail = ErrDetail.BUFFER_FULL_ERROR) (hp : d.parent = some FragType.audio)
    (hft : d.fragType = none) (hstate : s.state = ASState.PARSING ∨ s.state = ASState.PARSED)
    (hm : s.media = some m) :
    (ascMediaBuffered s m = true →
      (ascOnError s d now).1.state = ASState.IDLE ∧
      (s.config.maxMaxBufferLength ≥ s.config.maxBufferLength →
        (ascOnError s d now).1.config.maxMaxBufferLength = s.config.maxMaxBufferLength / 2) ∧
      (¬s.config.maxMaxBufferLength ≥ s.config.maxBufferLength →
        (ascOnError s d now).1.config = s.config) ∧
      (ascOnError s d now).2.2 = []) ∧
    (ascMediaBuffered s m = false →
      (ascOnError s d now).1.state = ASState.BUFFER_FLUSHING ∧
      (ascOnError s d now).1.fragCurrentSet = false ∧
      (ascOnError s d now).1.config = s.config ∧
      (ascOnError s d now).2.2 = [ASCEvent.BUFFER_FLUSHING_AUDIO true]) :=
  ascOnError_bufferFull_cases s d now m hd hp hft hstate hm

/-- A non-fatal audio buffer-full error payload. -/
def c5d : ASCErrorData :=
  { fatal := false, edetail := ErrDetail.BUFFER_FULL_ERROR, fragType := none,
    parent := some FragType.audio }

/-- C5 counterexample state A: playhead 10 fully buffered in the audio
buffer, but `maxMaxBufferLength` (20) already below `maxBufferLength` (30). -/
def c5sA : ASCState :=
  { state := ASState.PARSING,
    config := { fragLoadingMaxRetry := 3, fragLoadingRetryDelay := 1000,
                fragLoadingMaxRetryTimeout := 3000,
                maxBufferLength := 30, maxMaxBufferLength := 20 },
    fragLoadError := 0, retryDate := 0, initPTS := fun _ => none,
    videoTrackCC := -1, media := some { currentTime := 10, buffered := [] },
    mediaBuffer := some { currentTime := 0, buffered := [(0, 100)] },
    fragCurrentSet := true, nextLoadPosition := 0 }

/-- C5 counterexample state B: the playhead itself is buffered but the range
ends at 10.2, within the extra half-second the code also requires. -/
def c5sB : ASCState :=
  { c5sA with mediaBuffer := some { currentTime := 0, buffered := [(0, 51/5)] } }

/-- C5 counterexample: (A) with the position buffered the controller resumes
to `IDLE` but does **not** halve `maxMaxBufferLength` (it stays 20, because
20 < `maxBufferLength` = 30), refuting the unconditional halving; (B) with
the position buffered but position+0.5 s not buffered, the controller
flushes instead of resuming, refuting "when the current playback position is
already buffered ... returns to IDLE". -/
theorem c5_buffer_full_counterexample :
    ascMediaBuffered c5sA { currentTime := 10, buffered := [] } = true ∧
    (ascOnError c5sA c5d 0).1.state = ASState.IDLE ∧
    (ascOnError c5sA c5d 0).1.config.maxMaxBufferLength = 20 ∧
    ((20 : ℚ) ≠ 20 / 2) ∧
    isBuffered { currentTime := 0, buffered := [(0, 51/5)] } 10 = true ∧
    (ascOnError c5sB c5d 0).1.state = ASState.BUFFER_FLUSHING := by
  have hA := ascOnError_bufferFull_cases c5sA c5d 0 { currentTime := 10, buffered := [] }
    rfl rfl rfl (Or.inl rfl) rfl
  have hB := ascOnError_bufferFull_cases c5sB c5d 0 { currentTime := 10, buffered := [] }
    rfl rfl rfl (Or.inl rfl) rfl
  have hbA : ascMediaBuffered c5sA { currentTime := 10, buffered := [] } = true := by
    norm_num [ascMediaBuffered, c5sA, isBuffered]
  have hbB : ascMediaBuffered c5sB { currentTime := 10, buffered := [] } = false := by
    norm_num [ascMediaBuffered, c5sB, c5sA, isBuffered]
  have hcfg := (hA.1 hbA).2.2.1 (by norm_num [c5sA])
  refine ⟨hbA, (hA.1 hbA).1, ?_, by norm_num, ?_, (hB.2 hbB).1⟩
  · rw [hcfg]; rfl
  · norm_num [isBuffered]

/-- C5 witness state: like A but with `maxMaxBufferLength = 600 ≥ 30`. -/
def c5sC : ASCState :=
  { c5sA with config := { c5sA.config with maxMaxBufferLength := 600 } }

/-- C5 witness: the halving side at `c5sC` and the flushing side at `c5sB`. -/
theorem c5_buffer_full_recovery_witness :
    (ascOnError c5sC c5d 0).1.config.maxMaxBufferLength =
      c5sC.config.maxMaxBufferLength / 2 ∧
    (ascOnError c5sB c5d 0).1.state = ASState.BUFFER_FLUSHING ∧
    (ascOnError c5sB c5d 0).2.2 = [ASCEvent.BUFFER_FLUSHING_AUDIO true] :=
  let hC := c5_buffer_full_recovery c5sC c5d 0 { currentTime := 10, buffered := [] }
    rfl rfl rfl (Or.inl rfl) rfl
  let hB := c5_buffer_full_recovery c5sB c5d 0 { currentTime := 10, buffered := [] }
    rfl rfl rfl (Or.inl rfl) rfl
  ⟨(hC.1 (by norm_num [ascMediaBuffered, c5sC, c5sA, isBuffered])).2.1
      (by norm_num [c5sC, c5sA]),
   (hB.2 (by norm_num [ascMediaBuffered, c5sB, c5sA, isBuffered])).1,
   (hB.2 (by norm_num [ascMediaBuffered, c5sB, c5sA, isBuffered])).2.2.2⟩

/-! ## C7: entering and leaving WAITING_INIT_PTS -/

/-- The C7 base state: idle controller, no initPTS known yet. -/
def c7s0 : ASCState :=
  { state := ASState.IDLE,
    config := ascW.config, fragLoadError := 0, retryDate := 0,
    initPTS := fun _ => none, videoTrackCC := -1, media := none,
    mediaBuffer := none, fragCurrentSet := false, nextLoadPosition := 0 }

/-- The C7 fragment: a media fragment on continuity counter 0. -/
def c7frag : ChosenFrag :=
  { cc := 0, isInitSegment := false, start := 0, duration := 4 }

/-- The state after the idle load decision parks on `c7frag`. -/
def c7s1 : ASCState := (idleLoadDecision c7s0 c7frag true false false).1

/-- C7 counterexample: waiting on continuity counter 0, the controller
returns to `IDLE` as soon as an initPTS for a *different* counter (1) is
published — `initPTS[0]` is still unknown, refuting "never before the value
for the awaited continuity counter is known".  Moreover `WAITING_TRACK`
transitions into `WAITING_INIT_PTS` even when the base timestamp is already
known, refuting the "exactly when ... not yet known" entry condition. -/
theorem c7_exit_before_awaited_cc :
    c7s1.state = ASState.WAITING_INIT_PTS ∧
    (idleLoadDecision c7s0 c7frag true false false).2 = some LoadAction.waitInitPts ∧
    c7s1.initPTS c7frag.cc = none ∧
    (onInitPtsFound c7s1 1 100).state = ASState.IDLE ∧
    (onInitPtsFound c7s1 1 100).initPTS c7frag.cc = none ∧
    (doTickWaitingTrack
        { c7s0 with
          state := ASState.WAITING_TRACK,
          initPTS := fun _ => some 5,
          videoTrackCC := 0 } true).state =
      ASState.WAITING_INIT_PTS := by
  refine ⟨rfl, rfl, rfl, ?_, ?_, rfl⟩ <;> rfl

/-- C7 (amended): from `IDLE`, dispatching a chosen media fragment parks the
controller in `WAITING_INIT_PTS` exactly when the track has no init segment
and no finite video initPTS exists for the fragment's continuity counter;
`WAITING_TRACK` moves to `WAITING_INIT_PTS` whenever details are present,
regardless of initPTS; a tick leaves `WAITING_INIT_PTS` for `IDLE` exactly
when `initPTS[videoTrackCC]` — the entry for the *most recent* video
continuity counter — is finite; and any initPTS publication while waiting
returns the controller to `IDLE`, even for a different counter than the
awaited one. -/
theorem c7_waiting_init_pts_transitions
    (s : ASCState) (frag : ChosenFrag) (fragNotLoaded audioSwitch hasInit hasDetails : Bool)
    (cc v : Int) (hns : frag.isInitSegment = false)
    (hload : audioSwitch = true ∨ fragNotLoaded = true) :
    (s.state = ASState.IDLE →
      (((idleLoadDecision s frag fragNotLoaded audioSwitch hasInit).1.state =
          ASState.WAITING_INIT_PTS ∧
        (idleLoadDecision s frag fragNotLoaded audioSwitch hasInit).2 =
          some LoadAction.waitInitPts) ↔
        (hasInit = false ∧ s.initPTS frag.cc = none))) ∧
    (s.state = ASState.WAITING_TRACK →
      ((doTickWaitingTrack s hasDetails).state = ASState.WAITING_INIT_PTS ↔
        hasDetails = true)) ∧
    (s.state = ASState.WAITING_INIT_PTS →
      ((doTickWaitingInitPts s).state = ASState.IDLE ↔
        (s.initPTS s.videoTrackCC).isSome = true)) ∧
    (s.state = ASState.WAITING_INIT_PTS →
      (onInitPtsFound s cc v).state = ASState.IDLE) := by
  refine ⟨?_, ?_, ?_, ?_⟩
  · intro hIdle
    rcases hasInit with _ | _ <;> rcases hpts : s.initPTS frag.cc with _ | v' <;>
      simp [idleLoadDecision, hns, hload, hIdle, hpts]
  · intro hs
    rcases hasDetails with _ | _ <;> simp [doTickWaitingTrack, hs]
  · intro hs
    rcases hpts : s.initPTS s.videoTrackCC with _ | v' <;>
      simp [doTickWaitingInitPts, hs, hpts]
  · intro hs
    simp [onInitPtsFound, doTickWaitingInitPts, hs]

/-- C7 witness: the amended characterisation applied at the concrete trace of
the counterexample state. -/
theorem c7_waiting_init_pts_transitions_witness :
    ((idleLoadDecision c7s0 c7frag true false false).1.state = ASState.WAITING_INIT_PTS ∧
     (idleLoadDecision c7s0 c7frag true false false).2 = some LoadAction.waitInitPts) ∧
    (onInitPtsFound c7s1 1 100).state = ASState.IDLE :=
  let h0 := c7_waiting_init_pts_transitions c7s0 c7frag true false false true 1 100
    rfl (Or.inr rfl)
  let h1 := c7_waiting_init_pts_transitions c7s1 c7frag true false false true 1 100
    rfl (Or.inr rfl)
  ⟨(h0.1 rfl).mpr ⟨rfl, rfl⟩, h1.2.2.2 rfl⟩

end Hls
